import Mathlib

/-!
Verification of the tidy/join pipeline of `final.py`: 2020 election
summarization, vaccination-data normalization, the state-keyed join, the
recency snapshot, and the max-aggregated regression input.  DataFrames are
modelled as lists of records, pandas NaN cells as `Option`, and float
arithmetic as exact rationals.
-/

namespace Final

/-- One row of the election table after the year-2020 filter and the column
selection `[["state", "candidatevotes", "totalvotes", "party_simplified"]]`. -/
structure ElectionRow where
  state : String
  candidatevotes : ℤ
  totalvotes : ℤ
  party_simplified : String
deriving DecidableEq

/-- The boolean mask `idx`: a row is marked iff its `candidatevotes` equals
the maximum over its state's rows
(`elections.groupby(["state"])["candidatevotes"].transform(max) ==
elections["candidatevotes"]`).  For a row `r` of `rows`, the group maximum
equals `r.candidatevotes` exactly when no row of the same state exceeds it. -/
def isStateMax (rows : List ElectionRow) (r : ElectionRow) : Bool :=
  rows.all fun q => q.state != r.state || decide (q.candidatevotes ≤ r.candidatevotes)

/-- An election row after the index-aligned `majority_party` assignment
(`elections["majority_party"] = majority["p"]`, which leaves NaN on rows not
selected by `idx`) and after the per-row percent-column writes
(`elections.at[i, row["party_simplified"] + "_percent"] =
row["candidatevotes"]/row["totalvotes"]*100`).  `percent p` is the cell of
column `p ++ "_percent"`, non-null only at rows whose party is `p`. -/
structure AnnRow where
  state : String
  candidatevotes : ℤ
  totalvotes : ℤ
  party_simplified : String
  majority : Option String
  percent : String → Option ℚ

/-- The annotation of one row (see `AnnRow`). -/
def annotate (rows : List ElectionRow) (r : ElectionRow) : AnnRow :=
  { state := r.state
    candidatevotes := r.candidatevotes
    totalvotes := r.totalvotes
    party_simplified := r.party_simplified
    majority := if isStateMax rows r then some r.party_simplified else none
    percent := fun p =>
      if p == r.party_simplified then
        some ((r.candidatevotes : ℚ) / (r.totalvotes : ℚ) * 100)
      else none }

/-- The election table with `majority_party` and the percent columns added. -/
def withMajority (rows : List ElectionRow) : List AnnRow :=
  rows.map (annotate rows)

/-- `groupby(...).first()` semantics for one column of one group: the first
non-null entry (pandas `first` skips NA values). -/
def firstSome {α : Type} : List (Option α) → Option α
  | [] => none
  | some a :: _ => some a
  | none :: l => firstSome l

/-- The distinct group keys of a column: each key once, at the position of
its first appearance. -/
def uniqueKeys : List String → List String
  | [] => []
  | s :: l => s :: ((uniqueKeys l).filter fun t => t != s)

/-- Lexicographic comparison of char lists by code point, the order pandas
sorts ASCII group keys in. -/
def charsLe : List Char → List Char → Bool
  | [], _ => true
  | _ :: _, [] => false
  | a :: as, b :: bs =>
      if a.val < b.val then true
      else if b.val < a.val then false
      else charsLe as bs

/-- Lexicographic string comparison by code point. -/
def strLe (a b : String) : Bool := charsLe a.data b.data

/-- Insertion into a sorted key list. -/
def insertSorted (s : String) : List String → List String
  | [] => [s]
  | t :: l => if strLe s t then s :: t :: l else t :: insertSorted s l

/-- Insertion sort of the group keys, modelling `groupby`'s sorted key
order. -/
def sortKeys : List String → List String
  | [] => []
  | s :: l => insertSorted s (sortKeys l)

/-- One row of the collapsed election summary
(`elections.groupby("state").first().drop(columns=["party_simplified",
"candidatevotes"]).reset_index().rename(columns={"state": "location"})`). -/
structure SummaryRow where
  location : String
  totalvotes : ℤ
  majority_party : Option String
  percent : String → Option ℚ

/-- The collapsed row for state `s`: per column, the first non-null value
among the state's rows; `candidatevotes` and `party_simplified` are dropped
and `state` is renamed to `location`. -/
def summaryFor (rows : List AnnRow) (s : String) : SummaryRow :=
  let g := rows.filter fun r => r.state == s
  { location := s
    totalvotes := (g.map fun r => r.totalvotes).headD 0
    majority_party := firstSome (g.map fun r => r.majority)
    percent := fun p => firstSome (g.map fun r => r.percent p) }

/-- The election summary table: one row per state key, keys in the sorted
order `groupby` produces. -/
def electionSummary (rows : List ElectionRow) : List SummaryRow :=
  (sortKeys (uniqueKeys (rows.map fun r => r.state))).map
    (summaryFor (withMajority rows))

/-- The 50 state names yielded by `us.STATES`, with the extra entry
`"New York State"` appended by the source before the `isin` filter. -/
def statesList : List String :=
  ["Alabama", "Alaska", "Arizona", "Arkansas", "California", "Colorado",
   "Connecticut", "Delaware", "Florida", "Georgia", "Hawaii", "Idaho",
   "Illinois", "Indiana", "Iowa", "Kansas", "Kentucky", "Louisiana", "Maine",
   "Maryland", "Massachusetts", "Michigan", "Minnesota", "Mississippi",
   "Missouri", "Montana", "Nebraska", "Nevada", "New Hampshire", "New Jersey",
   "New Mexico", "New York", "North Carolina", "North Dakota", "Ohio",
   "Oklahoma", "Oregon", "Pennsylvania", "Rhode Island", "South Carolina",
   "South Dakota", "Tennessee", "Texas", "Utah", "Vermont", "Virginia",
   "Washington", "West Virginia", "Wisconsin", "Wyoming", "New York State"]

/-- A raw vaccination row, restricted to the columns the pipeline reads. -/
structure RawVax where
  location : String
  date : String
  people_fully_vaccinated : Option ℤ
  people_fully_vaccinated_per_hundred : Option ℚ
  daily_vaccinations_per_million : Option ℚ
deriving DecidableEq

/-- `vaccinations[vaccinations["location"].isin(states)]`. -/
def filterVax (rows : List RawVax) : List RawVax :=
  rows.filter fun r => statesList.contains r.location

/-- One decimal digit. -/
def digitVal (c : Char) : Option ℕ :=
  if 48 ≤ c.toNat ∧ c.toNat ≤ 57 then some (c.toNat - 48) else none

/-- A digit run folded into a number, most significant digit first. -/
def digitsAux : ℕ → List Char → Option ℕ
  | acc, [] => some acc
  | acc, c :: cs =>
      match digitVal c with
      | some d => digitsAux (acc * 10 + d) cs
      | none => none

/-- A non-empty all-digit char run as a number. -/
def parseNat : List Char → Option ℕ
  | [] => none
  | cs => digitsAux 0 cs

/-- Split a char list at the dash separators. -/
def splitDash : List Char → List (List Char)
  | [] => [[]]
  | c :: cs =>
      match splitDash cs with
      | [] => [[]]
      | w :: ws => if c = '-' then [] :: w :: ws else (c :: w) :: ws

/-- `pd.to_datetime` on the ISO `YYYY-MM-DD` strings of the vaccination
data: the date is encoded as `y*10000 + m*100 + d`, an encoding whose `ℕ`
order is chronological; `none` models the exception raised on a string that
does not parse as a date. -/
def parseDate (s : String) : Option ℕ :=
  match (splitDash s.data).map parseNat with
  | [some y, some m, some d] =>
      if 1 ≤ m ∧ m ≤ 12 ∧ 1 ≤ d ∧ d ≤ 31 then some (y * 10000 + m * 100 + d)
      else none
  | _ => none

/-- A vaccination row after the location filter and the date parse. -/
structure VaxRow where
  location : String
  date : ℕ
  people_fully_vaccinated : Option ℤ
  people_fully_vaccinated_per_hundred : Option ℚ
  daily_vaccinations_per_million : Option ℚ
deriving DecidableEq

/-- Parsing of the `date` field of one filtered row. -/
def parseVaxRow (r : RawVax) : Option VaxRow :=
  (parseDate r.date).map fun d =>
    { location := r.location
      date := d
      people_fully_vaccinated := r.people_fully_vaccinated
      people_fully_vaccinated_per_hundred := r.people_fully_vaccinated_per_hundred
      daily_vaccinations_per_million := r.daily_vaccinations_per_million }

/-- The whole vaccination tidy step: the `isin(states)` filter followed by
`pd.to_datetime` over the `date` column. -/
def normalizeVax (rows : List RawVax) : Option (List VaxRow) :=
  (filterVax rows).mapM parseVaxRow

/-- Python's `str.upper()` on the ASCII location names: every character
mapped to its upper-case form. -/
def upper (s : String) : String := String.mk (s.data.map Char.toUpper)

/-- `location = row["location"].upper()` followed by the alias rewrite
`if location == "NEW YORK STATE": location = "NEW YORK"`. -/
def normalizeLoc (loc : String) : String :=
  let u := upper loc
  if u == "NEW YORK STATE" then "NEW YORK" else u

/-- `stateElection = elections[elections["location"] == location]`. -/
def lookupState (summary : List SummaryRow) (loc : String) : List SummaryRow :=
  summary.filter fun t => t.location == normalizeLoc loc

/-- `.iloc[0]`: the first matching row, or pandas' `IndexError` message when
there is none. -/
def iloc0 {α : Type} : List α → Except String α
  | [] => Except.error "single positional indexer is out-of-bounds"
  | a :: _ => Except.ok a

/-- The color derivation: `color = "green"`, overwritten with `"red"` when
the majority party is `REPUBLICAN` and `"blue"` when it is `DEMOCRAT`
(a NaN majority, modelled `none`, compares unequal to both). -/
def colorOf (party : Option String) : String :=
  if party == some "REPUBLICAN" then "red"
  else if party == some "DEMOCRAT" then "blue"
  else "green"

/-- A vaccination row enriched by the join loop with `DEMOCRAT_percent`,
`party` and `color`. -/
structure Enriched where
  location : String
  date : ℕ
  people_fully_vaccinated : Option ℤ
  people_fully_vaccinated_per_hundred : Option ℚ
  daily_vaccinations_per_million : Option ℚ
  DEMOCRAT_percent : Option ℚ
  party : Option String
  color : String
deriving DecidableEq

/-- The cell writes of one iteration of the join loop, given the matched
summary row. -/
def enrich (v : VaxRow) (se : SummaryRow) : Enriched :=
  { location := v.location
    date := v.date
    people_fully_vaccinated := v.people_fully_vaccinated
    people_fully_vaccinated_per_hundred := v.people_fully_vaccinated_per_hundred
    daily_vaccinations_per_million := v.daily_vaccinations_per_million
    DEMOCRAT_percent := se.percent "DEMOCRAT"
    party := se.majority_party
    color := colorOf se.majority_party }

/-- One iteration of the join loop: normalize the location, filter the
summary, read `majority_party` and `DEMOCRAT_percent` off the first match
with `.iloc[0]` (an `IndexError` when there is no match), and derive the
color. -/
def joinRow (summary : List SummaryRow) (v : VaxRow) : Except String Enriched :=
  match iloc0 (lookupState summary v.location) with
  | Except.error e => Except.error e
  | Except.ok se => Except.ok (enrich v se)

/-- The per-location maximum date,
`vaccinations.groupby("location")["date"].transform(max)` on the rows of
one location. -/
def maxDateFor (rows : List Enriched) (loc : String) : ℕ :=
  ((rows.filter fun r => r.location == loc).map fun r => r.date).foldr max 0

/-- `recentVax = vaccinations[idx]` where `idx` marks the rows whose date
equals their location's maximum date. -/
def recentVax (rows : List Enriched) : List Enriched :=
  rows.filter fun r => r.date == maxDateFor rows r.location

/-- Column-wise maximum skipping nulls, as pandas `agg(max)` computes it. -/
def optMax : List (Option ℚ) → Option ℚ
  | [] => none
  | none :: l => optMax l
  | some x :: l =>
      match optMax l with
      | none => some x
      | some y => some (max x y)

/-- One cell of `maxVax = vaccinations.groupby("location").agg(max)`: the
maximum of column `f` over the rows of location `loc`, taken independently
of every other column. -/
def aggMaxColumn (rows : List Enriched) (f : Enriched → Option ℚ) (loc : String) :
    Option ℚ :=
  optMax ((rows.filter fun r => r.location == loc).map f)

/-- `np.polyfit(x, y, 1)` in exact arithmetic: the ordinary least-squares
line `y = m*x + b`, returned as `(m, b)`. -/
def polyfit1 (xs ys : List ℚ) : ℚ × ℚ :=
  let n : ℚ := xs.length
  let sx := xs.sum
  let sy := ys.sum
  let sxx := (xs.map fun a => a * a).sum
  let sxy := (List.zipWith (fun a b => a * b) xs ys).sum
  let d := n * sxx - sx * sx
  ((n * sxy - sx * sy) / d, (sy * sxx - sx * sxy) / d)

/-! ### Concrete sample tables used by the witness and counterexample
theorems -/

/-- The CALIFORNIA DEMOCRAT example row of the specification. -/
def caRowD : ElectionRow :=
  { state := "CALIFORNIA", candidatevotes := 11110250, totalvotes := 17500881,
    party_simplified := "DEMOCRAT" }

/-- The CALIFORNIA REPUBLICAN example row of the specification. -/
def caRowR : ElectionRow :=
  { state := "CALIFORNIA", candidatevotes := 6006429, totalvotes := 17500881,
    party_simplified := "REPUBLICAN" }

/-- The CALIFORNIA example table of the specification. -/
def caRows : List ElectionRow := [caRowD, caRowR]

/-- First of two rows of one state tying at the maximal vote count. -/
def tieRowR : ElectionRow :=
  { state := "OHIO", candidatevotes := 100, totalvotes := 200,
    party_simplified := "REPUBLICAN" }

/-- Second of two rows of one state tying at the maximal vote count. -/
def tieRowD : ElectionRow :=
  { state := "OHIO", candidatevotes := 100, totalvotes := 200,
    party_simplified := "DEMOCRAT" }

/-- A vaccination row for a state missing from `caRows`. -/
def wyVaxRow : VaxRow :=
  { location := "Wyoming", date := 20210515, people_fully_vaccinated := some 200000,
    people_fully_vaccinated_per_hundred := some 35,
    daily_vaccinations_per_million := some 4000 }

/-- A second vaccination row for another state missing from `caRows`. -/
def vtVaxRow : VaxRow :=
  { location := "Vermont", date := 20210515, people_fully_vaccinated := some 250000,
    people_fully_vaccinated_per_hundred := some 41,
    daily_vaccinations_per_million := some 6000 }

/-- A vaccination row for Texas. -/
def texVaxRow : VaxRow :=
  { location := "Texas", date := 20210515, people_fully_vaccinated := some 9000000,
    people_fully_vaccinated_per_hundred := some 31,
    daily_vaccinations_per_million := some 3000 }

/-- A vaccination row for California. -/
def caVaxRow : VaxRow :=
  { location := "California", date := 20210515,
    people_fully_vaccinated := some 15000000,
    people_fully_vaccinated_per_hundred := some 38,
    daily_vaccinations_per_million := some 5000 }

/-- A hand-built summary row (REPUBLICAN majority) under the key TEXAS. -/
def dupRowA : SummaryRow :=
  { location := "TEXAS", totalvotes := 11315056,
    majority_party := some "REPUBLICAN", percent := fun _ => none }

/-- A second hand-built summary row (DEMOCRAT majority) under the same key
TEXAS. -/
def dupRowB : SummaryRow :=
  { location := "TEXAS", totalvotes := 11315056,
    majority_party := some "DEMOCRAT", percent := fun _ => none }

/-- A summary table carrying the key TEXAS twice. -/
def dupSummary : List SummaryRow := [dupRowA, dupRowB]

/-- A hand-built summary row with a DEMOCRAT majority for CALIFORNIA. -/
def demRow : SummaryRow :=
  { location := "CALIFORNIA", totalvotes := 17500881,
    majority_party := some "DEMOCRAT", percent := fun _ => none }

/-- A one-row summary table with a DEMOCRAT majority for CALIFORNIA. -/
def demSummary : List SummaryRow := [demRow]

/-- An enriched row with a high vaccination value at an early date. -/
def c8Old : Enriched :=
  { location := "Alpha", date := 20210101, people_fully_vaccinated := some 500,
    people_fully_vaccinated_per_hundred := some 50,
    daily_vaccinations_per_million := some 100,
    DEMOCRAT_percent := some 60, party := some "DEMOCRAT", color := "blue" }

/-- An enriched row of the same location with a lower value at the latest
date. -/
def c8Recent : Enriched :=
  { location := "Alpha", date := 20210102, people_fully_vaccinated := some 400,
    people_fully_vaccinated_per_hundred := some 40,
    daily_vaccinations_per_million := some 90,
    DEMOCRAT_percent := some 60, party := some "DEMOCRAT", color := "blue" }

/-- A two-row per-location series whose column-wise maximum differs from
its most-recent row. -/
def c8Rows : List Enriched := [c8Old, c8Recent]

/-- A raw vaccination row for a state. -/
def rawCa : RawVax :=
  { location := "California", date := "2021-05-15",
    people_fully_vaccinated := some 15000000,
    people_fully_vaccinated_per_hundred := some 38,
    daily_vaccinations_per_million := some 5000 }

/-- A raw vaccination row for a territory, dropped by the filter. -/
def rawGuam : RawVax :=
  { location := "Guam", date := "2021-05-15",
    people_fully_vaccinated := some 60000,
    people_fully_vaccinated_per_hundred := some 36,
    daily_vaccinations_per_million := some 2000 }

/-- A two-row raw vaccination table. -/
def rawRows : List RawVax := [rawCa, rawGuam]

/-- The parse of `rawCa`. -/
def caParsed : VaxRow :=
  { location := "California", date := 20210515,
    people_fully_vaccinated := some 15000000,
    people_fully_vaccinated_per_hundred := some 38,
    daily_vaccinations_per_million := some 5000 }

/-! ### List-level helper lemmas -/

lemma firstSome_append_of_none {α : Type} {xs : List (Option α)} (a : α)
    (ys : List (Option α)) (h : ∀ x ∈ xs, x = none) :
    firstSome (xs ++ some a :: ys) = some a := by
  induction xs with
  | nil => rfl
  | cons x t ih =>
      have hx := h x (List.mem_cons_self x t)
      subst hx
      simpa [firstSome] using ih fun y hy => h y (List.mem_cons_of_mem _ hy)

lemma firstSome_eq_of_all {α : Type} {xs : List (Option α)} {a : α}
    (hall : ∀ x ∈ xs, x = none ∨ x = some a) (hmem : some a ∈ xs) :
    firstSome xs = some a := by
  induction xs with
  | nil => cases hmem
  | cons x t ih =>
      rcases hall x (List.mem_cons_self x t) with hx | hx
      · subst hx
        have hmem : some a ∈ t := by simpa using hmem
        simpa [firstSome] using ih (fun y hy => hall y (List.mem_cons_of_mem _ hy)) hmem
      · subst hx
        rfl

lemma firstSome_eq_some_mem {α : Type} :
    ∀ {xs : List (Option α)} {a : α}, firstSome xs = some a → some a ∈ xs := by
  intro xs
  induction xs with
  | nil => intro a h; cases h
  | cons x t ih =>
      intro a h
      cases x with
      | none => exact List.mem_cons_of_mem _ (ih (by simpa [firstSome] using h))
      | some b =>
          simp only [firstSome, Option.some_inj] at h
          subst h
          exact List.mem_cons_self _ _

lemma mem_uniqueKeys (l : List String) (a : String) : a ∈ uniqueKeys l ↔ a ∈ l := by
  induction l with
  | nil => simp [uniqueKeys]
  | cons s t ih =>
      simp only [uniqueKeys, List.mem_cons, List.mem_filter, ih]
      constructor
      · rintro (rfl | ⟨h, _⟩)
        · exact Or.inl rfl
        · exact Or.inr h
      · rintro (rfl | h)
        · exact Or.inl rfl
        · by_cases hs : a = s
          · exact Or.inl hs
          · exact Or.inr ⟨h, by simpa using hs⟩

lemma uniqueKeys_nodup (l : List String) : (uniqueKeys l).Nodup := by
  induction l with
  | nil => simp [uniqueKeys]
  | cons s t ih =>
      simp only [uniqueKeys]
      refine List.nodup_cons.mpr ⟨?_, List.Nodup.filter _ ih⟩
      intro hmem
      simp [List.mem_filter] at hmem

lemma mem_insertSorted (s a : String) (l : List String) :
    a ∈ insertSorted s l ↔ a = s ∨ a ∈ l := by
  induction l with
  | nil => simp [insertSorted]
  | cons t r ih =>
      by_cases h : strLe s t = true
      · simp [insertSorted, h]
      · simp only [insertSorted, if_neg h, List.mem_cons, ih]
        tauto

lemma mem_sortKeys (l : List String) (a : String) : a ∈ sortKeys l ↔ a ∈ l := by
  induction l with
  | nil => simp [sortKeys]
  | cons s t ih => simp [sortKeys, mem_insertSorted, ih]

lemma insertSorted_nodup {s : String} {l : List String} (hn : l.Nodup)
    (hs : s ∉ l) : (insertSorted s l).Nodup := by
  induction l with
  | nil => simp [insertSorted]
  | cons t r ih =>
      rcases List.nodup_cons.mp hn with ⟨htr, hr⟩
      by_cases h : strLe s t = true
      · rw [insertSorted, if_pos h]
        exact List.nodup_cons.mpr ⟨hs, hn⟩
      · rw [insertSorted, if_neg h]
        refine List.nodup_cons.mpr ⟨?_, ih hr fun hm => hs (List.mem_cons_of_mem _ hm)⟩
        rw [mem_insertSorted]
        rintro (rfl | hm)
        · exact hs (List.mem_cons_self _ _)
        · exact htr hm

lemma sortKeys_nodup {l : List String} (hn : l.Nodup) : (sortKeys l).Nodup := by
  induction l with
  | nil => simp [sortKeys]
  | cons s t ih =>
      rcases List.nodup_cons.mp hn with ⟨hst, ht⟩
      exact insertSorted_nodup (ih ht) fun hm => hst ((mem_sortKeys t s).mp hm)

lemma filter_beq_of_nodup {l : List String} {a : String} (hn : l.Nodup) (ha : a ∈ l) :
    (l.filter fun b => b == a) = [a] := by
  induction l with
  | nil => cases ha
  | cons b t ih =>
      rcases List.nodup_cons.mp hn with ⟨hb, ht⟩
      rcases List.mem_cons.mp ha with rfl | ha
      · have : t.filter (fun c => c == a) = [] :=
          List.filter_eq_nil_iff.mpr fun c hc => by
            simp only [beq_iff_eq]
            intro h
            exact hb (h ▸ hc)
        simp [List.filter_cons, this]
      · have hba : (b == a) = false := by
          simp only [beq_eq_false_iff_ne]
          intro h
          exact hb (h ▸ ha)
        simp [List.filter_cons, hba, ih ht ha]

lemma le_foldr_max {l : List ℕ} {x : ℕ} (h : x ∈ l) : x ≤ l.foldr max 0 := by
  induction l with
  | nil => cases h
  | cons a t ih =>
      rcases List.mem_cons.mp h with rfl | h
      · exact le_max_left _ _
      · exact le_trans (ih h) (le_max_right _ _)

lemma foldr_max_zero_or_mem (l : List ℕ) : l.foldr max 0 = 0 ∨ l.foldr max 0 ∈ l := by
  induction l with
  | nil => exact Or.inl rfl
  | cons a t ih =>
      rcases max_choice a (t.foldr max 0) with h | h
      · right
        rw [List.foldr_cons, h]
        exact List.mem_cons_self _ _
      · rcases ih with h0 | hm
        · left
          rw [List.foldr_cons, h, h0]
        · right
          rw [List.foldr_cons, h]
          exact List.mem_cons_of_mem _ hm

/-! ### Theorems about the pipeline -/

/-- C6: a vaccination row located "New York State" is joined under the
election-summary key "NEW YORK": the alias is uppercased and rewritten to
"NEW YORK", and the summary lookup filters on that key. -/
theorem c6_new_york_alias :
    normalizeLoc "New York State" = "NEW YORK" ∧
    ∀ summary : List SummaryRow,
      lookupState summary "New York State" =
        summary.filter fun t => t.location == "NEW YORK" := by
  have h : normalizeLoc "New York State" = "NEW YORK" := by decide
  exact ⟨h, fun summary => by simp only [lookupState, h]⟩

lemma colorOf_cases (p : Option String) :
    (colorOf p = "blue" ↔ p = some "DEMOCRAT") ∧
    (colorOf p = "red" ↔ p = some "REPUBLICAN") ∧
    (colorOf p = "green" ↔ (p ≠ some "DEMOCRAT" ∧ p ≠ some "REPUBLICAN")) ∧
    (colorOf p = "blue" ∨ colorOf p = "red" ∨ colorOf p = "green") := by
  unfold colorOf
  by_cases h1 : p = some "REPUBLICAN"
  · subst h1
    simp
  · by_cases h2 : p = some "DEMOCRAT"
    · subst h2
      simp
    · simp [h1, h2]

lemma joinRow_ok {summary : List SummaryRow} {v : VaxRow} {e : Enriched}
    (h : joinRow summary v = Except.ok e) :
    ∃ se l, lookupState summary v.location = se :: l ∧ e = enrich v se := by
  unfold joinRow at h
  cases hl : lookupState summary v.location with
  | nil =>
      rw [hl] at h
      simp [iloc0] at h
  | cons se l =>
      rw [hl] at h
      simp only [iloc0, Except.ok.injEq] at h
      exact ⟨se, l, rfl, h.symm⟩

/-- C5: in every enriched vaccination record, the color is "blue" iff the
joined majority party is DEMOCRAT, "red" iff it is REPUBLICAN, and "green"
in every other case; no other color value occurs. -/
theorem c5_display_color (summary : List SummaryRow) (v : VaxRow) (e : Enriched)
    (h : joinRow summary v = Except.ok e) :
    (e.color = "blue" ↔ e.party = some "DEMOCRAT") ∧
    (e.color = "red" ↔ e.party = some "REPUBLICAN") ∧
    (e.color = "green" ↔ (e.party ≠ some "DEMOCRAT" ∧ e.party ≠ some "REPUBLICAN")) ∧
    (e.color = "blue" ∨ e.color = "red" ∨ e.color = "green") := by
  obtain ⟨se, l, _, he⟩ := joinRow_ok h
  subst he
  exact colorOf_cases se.majority_party

/-- C3: the recency snapshot holds exactly the enriched rows whose date is
maximal among the rows of their location; in particular every row tying at
the maximal date is kept. -/
theorem c3_recent_snapshot (rows : List Enriched) (r : Enriched) :
    r ∈ recentVax rows ↔
      r ∈ rows ∧ ∀ s ∈ rows, s.location = r.location → s.date ≤ r.date := by
  unfold recentVax
  rw [List.mem_filter]
  have hmem : ∀ s ∈ rows, s.location = r.location →
      s.date ∈ ((rows.filter fun q => q.location == r.location).map fun q => q.date) :=
    fun s hs hloc =>
      List.mem_map_of_mem _ (List.mem_filter.mpr ⟨hs, by simp [hloc]⟩)
  constructor
  · rintro ⟨hr, hd⟩
    have hd : r.date = maxDateFor rows r.location := by simpa using hd
    refine ⟨hr, fun s hs hloc => ?_⟩
    calc s.date ≤ maxDateFor rows r.location := le_foldr_max (hmem s hs hloc)
    _ = r.date := hd.symm
  · rintro ⟨hr, hmax⟩
    refine ⟨hr, ?_⟩
    have h1 : r.date ≤ maxDateFor rows r.location := le_foldr_max (hmem r hr rfl)
    have h2 : maxDateFor rows r.location ≤ r.date := by
      unfold maxDateFor
      rcases foldr_max_zero_or_mem
          ((rows.filter fun q => q.location == r.location).map fun q => q.date) with
        h0 | hm
      · rw [h0]
        exact Nat.zero_le _
      · obtain ⟨q, hq, hdate⟩ := List.mem_map.mp hm
        obtain ⟨hqrows, hqloc⟩ := List.mem_filter.mp hq
        rw [← hdate]
        exact hmax q hqrows (by simpa using hqloc)
    simp [le_antisymm h1 h2]

/-! ### The collapsed election summary, column by column -/

lemma withMajority_filter (rows : List ElectionRow) (s : String) :
    ((withMajority rows).filter fun r => r.state == s) =
      (rows.filter fun r => r.state == s).map (annotate rows) := by
  unfold withMajority
  rw [List.filter_map]
  rfl

lemma summaryFor_majority (rows : List ElectionRow) (s : String) :
    (summaryFor (withMajority rows) s).majority_party =
      firstSome ((rows.filter fun r => r.state == s).map fun q =>
        if isStateMax rows q then some q.party_simplified else none) := by
  show firstSome (((withMajority rows).filter fun r => r.state == s).map
    fun r => r.majority) = _
  rw [withMajority_filter, List.map_map]
  rfl

lemma summaryFor_percent (rows : List ElectionRow) (s p : String) :
    (summaryFor (withMajority rows) s).percent p =
      firstSome ((rows.filter fun r => r.state == s).map fun q =>
        if p == q.party_simplified then
          some ((q.candidatevotes : ℚ) / (q.totalvotes : ℚ) * 100)
        else none) := by
  show firstSome (((withMajority rows).filter fun r => r.state == s).map
    fun r => r.percent p) = _
  rw [withMajority_filter, List.map_map]
  rfl

lemma filter_electionSummary {rows : List ElectionRow} {s : String}
    (hs : ∃ r ∈ rows, r.state = s) :
    ((electionSummary rows).filter fun t => t.location == s) =
      [summaryFor (withMajority rows) s] := by
  unfold electionSummary
  rw [List.filter_map]
  have hpred : ((fun t : SummaryRow => t.location == s) ∘
      summaryFor (withMajority rows)) = fun k => k == s := rfl
  rw [hpred]
  have hmem : s ∈ sortKeys (uniqueKeys (rows.map fun r => r.state)) := by
    rw [mem_sortKeys, mem_uniqueKeys]
    obtain ⟨r, hr, rfl⟩ := hs
    exact List.mem_map_of_mem _ hr
  have hnd := sortKeys_nodup (uniqueKeys_nodup (rows.map fun r => r.state))
  rw [filter_beq_of_nodup hnd hmem]
  rfl

lemma isStateMax_of_unique_max {rows : List ElectionRow} {r : ElectionRow}
    (hmax : ∀ q ∈ rows, q.state = r.state → q ≠ r →
      q.candidatevotes < r.candidatevotes) :
    isStateMax rows r = true := by
  rw [isStateMax, List.all_eq_true]
  intro q hq
  simp only [Bool.or_eq_true, bne_iff_ne, ne_eq, decide_eq_true_eq]
  by_cases hqs : q.state = r.state
  · by_cases hqr : q = r
    · subst hqr
      exact Or.inr le_rfl
    · exact Or.inr (le_of_lt (hmax q hq hqs hqr))
  · exact Or.inl hqs

/-- C2: the summary has exactly one row for a state, and when one row of the
state strictly dominates every other row of that state in `candidatevotes`,
its party is the state's `majority_party`. -/
theorem c2_majority_party (rows : List ElectionRow) (r : ElectionRow)
    (hr : r ∈ rows)
    (hmax : ∀ q ∈ rows, q.state = r.state → q ≠ r →
      q.candidatevotes < r.candidatevotes) :
    ((electionSummary rows).filter fun t => t.location == r.state) =
      [summaryFor (withMajority rows) r.state] ∧
    (summaryFor (withMajority rows) r.state).majority_party =
      some r.party_simplified := by
  refine ⟨filter_electionSummary ⟨r, hr, rfl⟩, ?_⟩
  rw [summaryFor_majority]
  have hrmax := isStateMax_of_unique_max hmax
  apply firstSome_eq_of_all
  · intro x hx
    obtain ⟨q, hq, rfl⟩ := List.mem_map.mp hx
    obtain ⟨hqrows, hqstate⟩ := List.mem_filter.mp hq
    have hqstate : q.state = r.state := by simpa using hqstate
    by_cases hq_max : isStateMax rows q = true
    · right
      have hrq : r.candidatevotes ≤ q.candidatevotes := by
        have hall := (List.all_eq_true.mp hq_max) r hr
        simp only [Bool.or_eq_true, bne_iff_ne, ne_eq, decide_eq_true_eq] at hall
        rcases hall with h | h
        · exact absurd hqstate.symm h
        · exact h
      by_cases hqr : q = r
      · subst hqr
        simp [hq_max]
      · exact absurd (hmax q hqrows hqstate hqr) (not_lt.mpr hrq)
    · left
      simp only [hq_max]
      rw [if_neg]
      simp [hq_max]
  · have hrfilter : r ∈ rows.filter fun q => q.state == r.state :=
      List.mem_filter.mpr ⟨hr, by simp⟩
    have hrmap := List.mem_map_of_mem
      (fun q => if isStateMax rows q then some q.party_simplified else none) hrfilter
    simpa [hrmax] using hrmap

/-- C10: when several rows of a state tie at the maximal `candidatevotes`,
the collapse still yields exactly one summary row for the state, and its
`majority_party` is the party of the first tying row in input order: every
tying row carries its own party in the `majority_party` column and
`groupby("state").first()` keeps the first non-null value. -/
theorem c10_tie_first_seen (l₁ l₂ : List ElectionRow) (r : ElectionRow)
    (hmax : isStateMax (l₁ ++ r :: l₂) r = true)
    (hfirst : ∀ q ∈ l₁, q.state = r.state → isStateMax (l₁ ++ r :: l₂) q = false)
    (_htie : ∃ q ∈ l₁ ++ r :: l₂, q.state = r.state ∧
      q.party_simplified ≠ r.party_simplified ∧
      q.candidatevotes = r.candidatevotes) :
    (((electionSummary (l₁ ++ r :: l₂)).filter fun t => t.location == r.state) =
      [summaryFor (withMajority (l₁ ++ r :: l₂)) r.state]) ∧
    (summaryFor (withMajority (l₁ ++ r :: l₂)) r.state).majority_party =
      some r.party_simplified := by
  have hrmem : r ∈ l₁ ++ r :: l₂ := List.mem_append_right _ (List.mem_cons_self _ _)
  refine ⟨filter_electionSummary ⟨r, hrmem, rfl⟩, ?_⟩
  rw [summaryFor_majority, List.filter_append, List.filter_cons]
  rw [if_pos (by simp : (r.state == r.state) = true)]
  rw [List.map_append, List.map_cons, if_pos hmax]
  apply firstSome_append_of_none
  intro x hx
  obtain ⟨q, hq, rfl⟩ := List.mem_map.mp hx
  obtain ⟨hql, hqs⟩ := List.mem_filter.mp hq
  rw [if_neg]
  rw [hfirst q hql (by simpa using hqs)]
  simp

lemma percent_some_exists {rows : List ElectionRow} {s p : String} {x : ℚ}
    (h : (summaryFor (withMajority rows) s).percent p = some x) :
    ∃ q ∈ rows, q.state = s ∧ q.party_simplified = p ∧
      x = (q.candidatevotes : ℚ) / (q.totalvotes : ℚ) * 100 := by
  rw [summaryFor_percent] at h
  obtain ⟨q, hq, hval⟩ := List.mem_map.mp (firstSome_eq_some_mem h)
  obtain ⟨hqrows, hqs⟩ := List.mem_filter.mp hq
  by_cases hp : (p == q.party_simplified) = true
  · rw [if_pos hp] at hval
    exact ⟨q, hqrows, by simpa using hqs, (beq_iff_eq.mp hp).symm,
      (Option.some_inj.mp hval).symm⟩
  · rw [if_neg hp] at hval
    cases hval

/-- C4: every non-null percent cell of the election summary is the
`candidatevotes / totalvotes * 100` vote share of a row of that state and
party. -/
theorem c4_vote_percent (rows : List ElectionRow) (s p : String) (x : ℚ)
    (h : (summaryFor (withMajority rows) s).percent p = some x) :
    ∃ q ∈ rows, q.state = s ∧ q.party_simplified = p ∧
      x = (q.candidatevotes : ℚ) / (q.totalvotes : ℚ) * 100 :=
  percent_some_exists h

/-- C9: with vote counts between 0 and the state total and a positive
total, every percent cell of the summary lies in [0, 100]; and for a state
whose DEMOCRAT, REPUBLICAN and OTHER counts sum to the shared total, the
three percent cells sum to exactly 100. -/
theorem c9_percent_bounds_sum :
    (∀ (rows : List ElectionRow) (s p : String) (x : ℚ),
        (∀ q ∈ rows, 0 ≤ q.candidatevotes ∧ q.candidatevotes ≤ q.totalvotes ∧
          0 < q.totalvotes) →
        (summaryFor (withMajority rows) s).percent p = some x →
        0 ≤ x ∧ x ≤ 100) ∧
    (∀ (s : String) (cd cr co T : ℤ), 0 < T → cd + cr + co = T →
        ∃ pd pr po : ℚ,
          (summaryFor (withMajority
              [⟨s, cd, T, "DEMOCRAT"⟩, ⟨s, cr, T, "REPUBLICAN"⟩,
               ⟨s, co, T, "OTHER"⟩]) s).percent "DEMOCRAT" = some pd ∧
          (summaryFor (withMajority
              [⟨s, cd, T, "DEMOCRAT"⟩, ⟨s, cr, T, "REPUBLICAN"⟩,
               ⟨s, co, T, "OTHER"⟩]) s).percent "REPUBLICAN" = some pr ∧
          (summaryFor (withMajority
              [⟨s, cd, T, "DEMOCRAT"⟩, ⟨s, cr, T, "REPUBLICAN"⟩,
               ⟨s, co, T, "OTHER"⟩]) s).percent "OTHER" = some po ∧
          pd + pr + po = 100) := by
  constructor
  · intro rows s p x hb h
    obtain ⟨q, hqrows, _, _, rfl⟩ := percent_some_exists h
    obtain ⟨h0, h1, h2⟩ := hb q hqrows
    have h0Q : (0 : ℚ) ≤ q.candidatevotes := by exact_mod_cast h0
    have h1Q : (q.candidatevotes : ℚ) ≤ q.totalvotes := by exact_mod_cast h1
    have h2Q : (0 : ℚ) < q.totalvotes := by exact_mod_cast h2
    constructor
    · have := div_nonneg h0Q h2Q.le
      nlinarith
    · have := (div_le_one h2Q).mpr h1Q
      nlinarith
  · intro s cd cr co T hT hsum
    refine ⟨(cd : ℚ) / T * 100, (cr : ℚ) / T * 100, (co : ℚ) / T * 100,
      ?_, ?_, ?_, ?_⟩
    · rw [summaryFor_percent]
      simp [List.filter, firstSome]
    · rw [summaryFor_percent]
      simp [List.filter, firstSome]
    · rw [summaryFor_percent]
      simp [List.filter, firstSome]
    · have hTQ : (T : ℚ) ≠ 0 := Int.cast_ne_zero.mpr (ne_of_gt hT)
      have hsumQ : (cd : ℚ) + cr + co = T := by exact_mod_cast hsum
      field_simp
      linarith

/-! ### Join behavior (C1) -/

/-- C1 (amended): the collapsed summary carries each state key at most
once, so the per-row lookup finds at most one match in it; when the lookup
finds no match, the join stops with pandas' fixed index-out-of-bounds
error, which does not carry the offending location; and when a table offers
more than one match, the join silently uses the first matching row instead
of failing. -/
theorem c1_join_behavior :
    (∀ rows : List ElectionRow,
        ((electionSummary rows).map fun t => t.location).Nodup) ∧
    (∀ (rows : List ElectionRow) (loc : String),
        (lookupState (electionSummary rows) loc).length ≤ 1) ∧
    (∀ (summary : List SummaryRow) (v : VaxRow),
        lookupState summary v.location = [] →
          joinRow summary v =
            Except.error "single positional indexer is out-of-bounds") ∧
    (∀ (summary : List SummaryRow) (v : VaxRow) (se : SummaryRow)
        (l : List SummaryRow),
        lookupState summary v.location = se :: l →
          joinRow summary v = Except.ok (enrich v se)) := by
  have hkeys : ∀ rows : List ElectionRow,
      ((electionSummary rows).map fun t => t.location) =
        sortKeys (uniqueKeys (rows.map fun r => r.state)) := by
    intro rows
    unfold electionSummary
    rw [List.map_map]
    exact List.map_id _
  refine ⟨?_, ?_, ?_, ?_⟩
  · intro rows
    rw [hkeys]
    exact sortKeys_nodup (uniqueKeys_nodup _)
  · intro rows loc
    unfold lookupState electionSummary
    rw [List.filter_map]
    rw [List.length_map]
    have hnd := sortKeys_nodup (uniqueKeys_nodup (rows.map fun r => r.state))
    calc (List.filter ((fun t : SummaryRow => t.location == normalizeLoc loc) ∘
            summaryFor (withMajority rows))
          (sortKeys (uniqueKeys (rows.map fun r => r.state)))).length
        = (sortKeys (uniqueKeys (rows.map fun r => r.state))).count
            (normalizeLoc loc) := by
          rw [List.count, List.countP_eq_length_filter]
          rfl
      _ ≤ 1 := List.nodup_iff_count_le_one.mp hnd (normalizeLoc loc)
  · intro summary v h
    unfold joinRow
    rw [h]
    rfl
  · intro summary v se l h
    unfold joinRow
    rw [h]
    rfl

/-! ### Vaccination normalization (C7) -/

lemma mapM_forall₂ {α β : Type} (f : α → Option β) :
    ∀ (l : List α) (out : List β), l.mapM f = some out →
      List.Forall₂ (fun a b => f a = some b) l out := by
  intro l
  induction l with
  | nil =>
      intro out h
      simp only [List.mapM_nil, pure, Option.some_inj] at h
      subst h
      exact List.Forall₂.nil
  | cons a t ih =>
      intro out h
      simp only [List.mapM_cons] at h
      cases hfa : f a with
      | none =>
          rw [hfa] at h
          simp at h
      | some b =>
          rw [hfa] at h
          cases hmt : t.mapM f with
          | none =>
              rw [hmt] at h
              simp at h
          | some bs =>
              rw [hmt] at h
              simp at h
              subst h
              exact List.Forall₂.cons hfa (ih bs hmt)

/-- C7: the normalized vaccination table retains exactly the input rows
whose location is one of the 50 state names or the alias "New York State",
and (when the whole parse succeeds) the retained rows correspond one-to-one
and in order to the filtered input rows, with the `date` string parsed into
a date value and every other field copied. -/
theorem c7_vax_normalize :
    (∀ (rows : List RawVax) (r : RawVax),
        r ∈ filterVax rows ↔ r ∈ rows ∧ r.location ∈ statesList) ∧
    (∀ (rows : List RawVax) (out : List VaxRow),
        normalizeVax rows = some out →
          List.Forall₂ (fun (raw : RawVax) (v : VaxRow) =>
            v.location = raw.location ∧ parseDate raw.date = some v.date ∧
            v.people_fully_vaccinated = raw.people_fully_vaccinated ∧
            v.people_fully_vaccinated_per_hundred =
              raw.people_fully_vaccinated_per_hundred ∧
            v.daily_vaccinations_per_million = raw.daily_vaccinations_per_million)
          (filterVax rows) out) := by
  constructor
  · intro rows r
    simp [filterVax, List.mem_filter, List.contains]
  · intro rows out h
    refine (mapM_forall₂ parseVaxRow (filterVax rows) out h).imp ?_
    intro raw v hv
    unfold parseVaxRow at hv
    cases hd : parseDate raw.date with
    | none =>
        rw [hd] at hv
        cases hv
    | some d =>
        rw [hd] at hv
        simp only [Option.map_some', Option.some_inj] at hv
        subst hv
        exact ⟨rfl, by simp [hd], rfl, rfl, rfl⟩

/-! ### Regression input (C8) -/

lemma optMax_eq_none {l : List (Option ℚ)} (h : optMax l = none) :
    ∀ w : ℚ, some w ∉ l := by
  induction l with
  | nil => simp
  | cons x t ih =>
      cases x with
      | none =>
          rw [optMax] at h
          intro w hw
          rcases List.mem_cons.mp hw with hx | hx
          · cases hx
          · exact ih h w hx
      | some y =>
          rw [optMax] at h
          cases hmt : optMax t <;> rw [hmt] at h <;> cases h

lemma optMax_spec : ∀ {l : List (Option ℚ)} {v : ℚ}, optMax l = some v →
    some v ∈ l ∧ ∀ w : ℚ, some w ∈ l → w ≤ v := by
  intro l
  induction l with
  | nil => intro v h; cases h
  | cons x t ih =>
      intro v h
      cases x with
      | none =>
          rw [optMax] at h
          obtain ⟨hmem, hb⟩ := ih h
          refine ⟨List.mem_cons_of_mem _ hmem, fun w hw => ?_⟩
          rcases List.mem_cons.mp hw with hx | hx
          · cases hx
          · exact hb w hx
      | some y =>
          rw [optMax] at h
          cases hmt : optMax t with
          | none =>
              rw [hmt] at h
              have hv : y = v := by simpa using h
              subst hv
              refine ⟨List.mem_cons_self _ _, fun w hw => ?_⟩
              rcases List.mem_cons.mp hw with hx | hx
              · simp only [Option.some_inj] at hx
                exact le_of_eq hx
              · exact absurd hx (optMax_eq_none hmt w)
          | some z =>
              rw [hmt] at h
              have hv : max y z = v := by simpa using h
              subst hv
              obtain ⟨hmem, hb⟩ := ih hmt
              constructor
              · rcases max_choice y z with hm | hm
                · rw [hm]
                  exact List.mem_cons_self _ _
                · rw [hm]
                  exact List.mem_cons_of_mem _ hmem
              · intro w hw
                rcases List.mem_cons.mp hw with hx | hx
                · simp only [Option.some_inj] at hx
                  exact hx.symm ▸ le_max_left _ _
                · exact le_trans (hb w hx) (le_max_right _ _)

lemma aggMax_spec {rows : List Enriched} {f : Enriched → Option ℚ}
    {loc : String} {v : ℚ} (h : aggMaxColumn rows f loc = some v) :
    (∃ r ∈ rows, r.location = loc ∧ f r = some v) ∧
    (∀ r ∈ rows, r.location = loc → ∀ w : ℚ, f r = some w → w ≤ v) := by
  unfold aggMaxColumn at h
  obtain ⟨hmem, hb⟩ := optMax_spec h
  constructor
  · obtain ⟨r, hr, hrv⟩ := List.mem_map.mp hmem
    obtain ⟨hrrows, hrloc⟩ := List.mem_filter.mp hr
    exact ⟨r, hrrows, by simpa using hrloc, hrv⟩
  · intro r hr hloc w hw
    refine hb w ?_
    rw [← hw]
    exact List.mem_map_of_mem f (List.mem_filter.mpr ⟨hr, by simp [hloc]⟩)

/-- C8: the regression input is the per-location column-wise maximum over
the full series (every non-null cell of the location is bounded by it and
it is attained), which can differ from the most-recent-date row of the
location; and the least-squares fit on the synthetic points x=[10,20,30],
y=[40,50,60] has slope 1 and intercept 30. -/
theorem c8_regression_input :
    (∀ (rows : List Enriched) (loc : String) (v : ℚ),
        aggMaxColumn rows (fun r => r.people_fully_vaccinated_per_hundred) loc =
          some v →
        (∃ r ∈ rows, r.location = loc ∧
          r.people_fully_vaccinated_per_hundred = some v) ∧
        (∀ r ∈ rows, r.location = loc → ∀ w : ℚ,
          r.people_fully_vaccinated_per_hundred = some w → w ≤ v)) ∧
    (aggMaxColumn c8Rows (fun r => r.people_fully_vaccinated_per_hundred)
        "Alpha" = some 50 ∧
      recentVax c8Rows = [c8Recent] ∧
      c8Recent.people_fully_vaccinated_per_hundred = some 40) ∧
    polyfit1 [10, 20, 30] [40, 50, 60] = (1, 30) := by
  refine ⟨fun rows loc v h => aggMax_spec h, ⟨?_, ?_, rfl⟩, ?_⟩
  · show some (max (50 : ℚ) 40) = some 50
    norm_num
  · unfold recentVax
    show List.filter _ [c8Old, c8Recent] = [c8Recent]
    rw [List.filter_cons, List.filter_cons]
    have h1 : (c8Old.date == maxDateFor c8Rows c8Old.location) = false := by decide
    have h2 : (c8Recent.date == maxDateFor c8Rows c8Recent.location) = true := by
      decide
    rw [h1, h2]
    rfl
  · unfold polyfit1
    norm_num [List.zipWith]

/-! ### Witnesses and counterexample -/

/-- Witness for C1 at concrete tables: unique keys and a length-1 lookup on
the California summary; the fixed error on an empty summary; the silent
first-match success on a duplicated summary. -/
theorem c1_join_behavior_witness :
    ((electionSummary caRows).map fun t => t.location).Nodup ∧
    (lookupState (electionSummary caRows) "California").length ≤ 1 ∧
    (lookupState ([] : List SummaryRow) wyVaxRow.location = [] ∧
      joinRow [] wyVaxRow =
        Except.error "single positional indexer is out-of-bounds") ∧
    (lookupState dupSummary texVaxRow.location = dupRowA :: [dupRowB] ∧
      joinRow dupSummary texVaxRow = Except.ok (enrich texVaxRow dupRowA)) :=
  ⟨c1_join_behavior.1 caRows,
   c1_join_behavior.2.1 caRows "California",
   ⟨rfl, c1_join_behavior.2.2.1 [] wyVaxRow rfl⟩,
   ⟨rfl, c1_join_behavior.2.2.2 dupSummary texVaxRow dupRowA [dupRowB] rfl⟩⟩

/-- Counterexample to C1 as stated: two different missing locations produce
the same fixed IndexError, so the error does not name the offending
location; and on a table with two matching rows of different majorities the
join does not fail at all but silently uses the first match. -/
theorem c1_counterexample :
    joinRow (electionSummary caRows) wyVaxRow =
      Except.error "single positional indexer is out-of-bounds" ∧
    joinRow (electionSummary caRows) vtVaxRow =
      Except.error "single positional indexer is out-of-bounds" ∧
    (lookupState dupSummary texVaxRow.location).length = 2 ∧
    joinRow dupSummary texVaxRow = Except.ok (enrich texVaxRow dupRowA) ∧
    dupRowA.majority_party ≠ dupRowB.majority_party :=
  ⟨rfl, rfl, rfl, rfl, by decide⟩

/-- Witness for C2 at the CALIFORNIA example rows: DEMOCRAT has the unique
maximum, and the summary's unique CALIFORNIA row carries
majority_party = DEMOCRAT. -/
theorem c2_majority_party_witness :
    caRowD ∈ caRows ∧
    (∀ q ∈ caRows, q.state = caRowD.state → q ≠ caRowD →
      q.candidatevotes < caRowD.candidatevotes) ∧
    ((electionSummary caRows).filter fun t => t.location == "CALIFORNIA") =
      [summaryFor (withMajority caRows) "CALIFORNIA"] ∧
    (summaryFor (withMajority caRows) "CALIFORNIA").majority_party =
      some "DEMOCRAT" :=
  ⟨by decide, by decide,
   (c2_majority_party caRows caRowD (by decide) (by decide)).1,
   (c2_majority_party caRows caRowD (by decide) (by decide)).2⟩

/-- Witness for C10 at a concrete two-party tie: the first tying row is
REPUBLICAN and the summary keeps REPUBLICAN. -/
theorem c10_tie_first_seen_witness :
    isStateMax ([] ++ tieRowR :: [tieRowD]) tieRowR = true ∧
    (∃ q ∈ [] ++ tieRowR :: [tieRowD], q.state = tieRowR.state ∧
      q.party_simplified ≠ tieRowR.party_simplified ∧
      q.candidatevotes = tieRowR.candidatevotes) ∧
    (summaryFor (withMajority ([] ++ tieRowR :: [tieRowD])) "OHIO").majority_party =
      some "REPUBLICAN" :=
  ⟨by decide, by decide,
   (c10_tie_first_seen [] [tieRowD] tieRowR (by decide) (by decide) (by decide)).2⟩

/-- Witness for C5 at a concrete join against a DEMOCRAT summary: the
joined row is blue. -/
theorem c5_display_color_witness :
    joinRow demSummary caVaxRow = Except.ok (enrich caVaxRow demRow) ∧
    ((enrich caVaxRow demRow).color = "blue" ↔
      (enrich caVaxRow demRow).party = some "DEMOCRAT") ∧
    (enrich caVaxRow demRow).color = "blue" :=
  ⟨rfl, (c5_display_color demSummary caVaxRow (enrich caVaxRow demRow) rfl).1,
   by decide⟩

/-- Witness for C4 at the CALIFORNIA example rows: the DEMOCRAT percent
cell is 11110250/17500881*100, which is within 0.01 of 63.48. -/
theorem c4_vote_percent_witness :
    ((summaryFor (withMajority caRows) "CALIFORNIA").percent "DEMOCRAT" =
      some ((caRowD.candidatevotes : ℚ) / (caRowD.totalvotes : ℚ) * 100)) ∧
    (∃ q ∈ caRows, q.state = "CALIFORNIA" ∧ q.party_simplified = "DEMOCRAT" ∧
      (caRowD.candidatevotes : ℚ) / (caRowD.totalvotes : ℚ) * 100 =
        (q.candidatevotes : ℚ) / (q.totalvotes : ℚ) * 100) ∧
    |(caRowD.candidatevotes : ℚ) / (caRowD.totalvotes : ℚ) * 100 - 6348 / 100| <
      1 / 100 := by
  have h : (summaryFor (withMajority caRows) "CALIFORNIA").percent "DEMOCRAT" =
      some ((caRowD.candidatevotes : ℚ) / (caRowD.totalvotes : ℚ) * 100) := by
    rw [summaryFor_percent]
    simp [caRows, caRowD, caRowR, List.filter, firstSome]
  refine ⟨h, c4_vote_percent caRows "CALIFORNIA" "DEMOCRAT" _ h, ?_⟩
  simp only [caRowD]
  push_cast
  rw [abs_sub_lt_iff]
  constructor <;> norm_num

/-- Witness for C9: bounds at the CALIFORNIA example, and an exact
100-percent sum for a 5/3/2-of-10 state. -/
theorem c9_percent_bounds_sum_witness :
    (∀ q ∈ caRows, 0 ≤ q.candidatevotes ∧ q.candidatevotes ≤ q.totalvotes ∧
      0 < q.totalvotes) ∧
    (0 ≤ (caRowD.candidatevotes : ℚ) / (caRowD.totalvotes : ℚ) * 100 ∧
      (caRowD.candidatevotes : ℚ) / (caRowD.totalvotes : ℚ) * 100 ≤ 100) ∧
    ((0 : ℤ) < 10 ∧ (5 : ℤ) + 3 + 2 = 10) ∧
    (∃ pd pr po : ℚ,
      (summaryFor (withMajority [⟨"OHIO", 5, 10, "DEMOCRAT"⟩,
          ⟨"OHIO", 3, 10, "REPUBLICAN"⟩, ⟨"OHIO", 2, 10, "OTHER"⟩])
        "OHIO").percent "DEMOCRAT" = some pd ∧
      (summaryFor (withMajority [⟨"OHIO", 5, 10, "DEMOCRAT"⟩,
          ⟨"OHIO", 3, 10, "REPUBLICAN"⟩, ⟨"OHIO", 2, 10, "OTHER"⟩])
        "OHIO").percent "REPUBLICAN" = some pr ∧
      (summaryFor (withMajority [⟨"OHIO", 5, 10, "DEMOCRAT"⟩,
          ⟨"OHIO", 3, 10, "REPUBLICAN"⟩, ⟨"OHIO", 2, 10, "OTHER"⟩])
        "OHIO").percent "OTHER" = some po ∧
      pd + pr + po = 100) := by
  have h : (summaryFor (withMajority caRows) "CALIFORNIA").percent "DEMOCRAT" =
      some ((caRowD.candidatevotes : ℚ) / (caRowD.totalvotes : ℚ) * 100) := by
    rw [summaryFor_percent]
    simp [caRows, caRowD, caRowR, List.filter, firstSome]
  exact ⟨by decide,
    c9_percent_bounds_sum.1 caRows "CALIFORNIA" "DEMOCRAT" _ (by decide) h,
    ⟨by decide, by decide⟩,
    c9_percent_bounds_sum.2 "OHIO" 5 3 2 10 (by decide) (by decide)⟩

/-- Witness for C7 at a concrete raw table: Guam is dropped, California is
kept, and its date string parses to the encoded date. -/
theorem c7_vax_normalize_witness :
    (rawCa ∈ filterVax rawRows ↔ rawCa ∈ rawRows ∧ rawCa.location ∈ statesList) ∧
    filterVax rawRows = [rawCa] ∧
    normalizeVax rawRows = some [caParsed] ∧
    List.Forall₂ (fun (raw : RawVax) (v : VaxRow) =>
      v.location = raw.location ∧ parseDate raw.date = some v.date ∧
      v.people_fully_vaccinated = raw.people_fully_vaccinated ∧
      v.people_fully_vaccinated_per_hundred =
        raw.people_fully_vaccinated_per_hundred ∧
      v.daily_vaccinations_per_million = raw.daily_vaccinations_per_million)
      (filterVax rawRows) [caParsed] := by
  have hn : normalizeVax rawRows = some [caParsed] := rfl
  exact ⟨c7_vax_normalize.1 rawRows rawCa, rfl, hn,
    c7_vax_normalize.2 rawRows [caParsed] hn⟩

/-- Witness for C8 at the concrete two-row series: the aggregated maximum
50 is attained and bounds every cell of the location. -/
theorem c8_regression_input_witness :
    (aggMaxColumn c8Rows (fun r => r.people_fully_vaccinated_per_hundred)
        "Alpha" = some 50) ∧
    (∃ r ∈ c8Rows, r.location = "Alpha" ∧
      r.people_fully_vaccinated_per_hundred = some 50) ∧
    (∀ r ∈ c8Rows, r.location = "Alpha" → ∀ w : ℚ,
      r.people_fully_vaccinated_per_hundred = some w → w ≤ 50) := by
  have h : aggMaxColumn c8Rows (fun r => r.people_fully_vaccinated_per_hundred)
      "Alpha" = some 50 := by
    show some (max (50 : ℚ) 40) = some 50
    norm_num
  exact ⟨h, (c8_regression_input.1 c8Rows "Alpha" 50 h).1,
    (c8_regression_input.1 c8Rows "Alpha" 50 h).2⟩

end Final
